import Mathlib

/-!
Verification of the `cogcities/drzone` ecosystem scripts
(`scripts/query_ecosystem.py`, the Collector, and `scripts/generate_reports.py`,
the Reporter) against their specification.

The Python code is shallowly embedded: JSON records become structures whose
fields are `Option`-valued exactly where the source reads them with
`dict.get` and a default; the GitHub API is modelled as the list of successive
page responses consumed by each pagination loop; file and network I/O become
explicit parameters and return values.
-/

/-! ## Collector: pagination (`scripts/query_ecosystem.py`)

Each paginated fetch repeatedly reads `data.get("pageInfo", {}).get("hasNextPage")`
and `data.get("nodes", [])` from the successive responses.  A response is
modelled by `Page`; the opaque `endCursor` only threads the iteration from one
response to the next, so the API is modelled directly as the list of responses
the loop would receive in order.  If that list is exhausted while the loop
would still continue, the model returns what has been accumulated. -/

/-- The `pageInfo` object of a response (`endCursor` elided, see above). -/
structure PageInfo where
  hasNextPage : Option Bool
deriving DecidableEq

/-- One page response: the `nodes` list and the `pageInfo` object, each read
with a defaulting `get` in the source. -/
structure Page (α : Type) where
  nodes : Option (List α)
  pageInfo : Option PageInfo
deriving DecidableEq

/-- `data.get("nodes", [])`. -/
def pageNodes {α : Type} (p : Page α) : List α := p.nodes.getD []

/-- Truthiness of `data.get("pageInfo", {}).get("hasNextPage")`. -/
def pageHasNext {α : Type} (p : Page α) : Bool :=
  match p.pageInfo with
  | none => false
  | some i => i.hasNextPage.getD false

/-- The unlimited pagination loop (`get_organizations`, `get_followers`,
`get_following`, `get_gists`): extend the accumulator with the page nodes,
stop when `hasNextPage` is falsy, else continue with the next response. -/
def paginate_all {α : Type} (acc : List α) : List (Page α) → List α
  | [] => acc
  | p :: rest =>
    if pageHasNext p then paginate_all (acc ++ pageNodes p) rest
    else acc ++ pageNodes p

/-- The limited pagination loop body of `get_repositories` / `get_starred_repos`:
`while len(acc) < limit` fetch a page, extend, break when `hasNextPage` is
falsy. -/
def paginate_limited {α : Type} (limit : Nat) (acc : List α) : List (Page α) → List α
  | [] => acc
  | p :: rest =>
    if limit ≤ acc.length then acc
    else if pageHasNext p then paginate_limited limit (acc ++ pageNodes p) rest
    else acc ++ pageNodes p

/-- `get_organizations` (lines 79-118; the unused `user` parameter elided). -/
def get_organizations {α : Type} (pages : List (Page α)) : List α :=
  paginate_all [] pages

/-- `get_followers` (lines 174-213). -/
def get_followers {α : Type} (pages : List (Page α)) : List α :=
  paginate_all [] pages

/-- `get_following` (lines 216-255). -/
def get_following {α : Type} (pages : List (Page α)) : List α :=
  paginate_all [] pages

/-- `get_gists` (lines 297-333). -/
def get_gists {α : Type} (pages : List (Page α)) : List α :=
  paginate_all [] pages

/-- `get_repositories` (lines 121-171): limited loop then `repos[:limit]`.
The source default for `limit` is 1000; `main` passes it explicitly. -/
def get_repositories {α : Type} (limit : Nat) (pages : List (Page α)) : List α :=
  (paginate_limited limit [] pages).take limit

/-- `get_starred_repos` (lines 258-294): limited loop then `starred[:limit]`.
The source default for `limit` is 500. -/
def get_starred_repos {α : Type} (limit : Nat) (pages : List (Page α)) : List α :=
  (paginate_limited limit [] pages).take limit

/-- The prefix of the response stream actually consumed by the unlimited
loop: every page up to and including the first whose `hasNextPage` is falsy. -/
def pages_fetched {α : Type} : List (Page α) → List (Page α)
  | [] => []
  | p :: rest => p :: (if pageHasNext p then pages_fetched rest else [])

/-- The prefix of the response stream actually consumed by the limited loop,
`count` being the number of items accumulated so far. -/
def pages_fetched_limited {α : Type} (limit count : Nat) : List (Page α) → List (Page α)
  | [] => []
  | p :: rest =>
    if limit ≤ count then []
    else p :: (if pageHasNext p then
        pages_fetched_limited limit (count + (pageNodes p).length) rest
      else [])

theorem paginate_all_acc {α : Type} (pages : List (Page α)) :
    ∀ acc : List α, paginate_all acc pages = acc ++ paginate_all [] pages := by
  induction pages with
  | nil => intro acc; simp [paginate_all]
  | cons p rest ih =>
    intro acc
    by_cases h : pageHasNext p
    · simp only [paginate_all, h, if_pos]
      rw [ih (acc ++ pageNodes p), ih ([] ++ pageNodes p)]
      simp [List.append_assoc]
    · simp [paginate_all, h]

theorem paginate_all_eq_flat {α : Type} (pages : List (Page α)) :
    paginate_all [] pages = (pages_fetched pages).flatMap pageNodes := by
  induction pages with
  | nil => simp [paginate_all, pages_fetched]
  | cons p rest ih =>
    by_cases h : pageHasNext p
    · simp only [paginate_all, pages_fetched, h, if_pos]
      rw [paginate_all_acc, ih]
      simp
    · simp [paginate_all, pages_fetched, h]

theorem paginate_limited_eq_flat {α : Type} (limit : Nat) (pages : List (Page α)) :
    ∀ acc : List α,
      paginate_limited limit acc pages
        = acc ++ (pages_fetched_limited limit acc.length pages).flatMap pageNodes := by
  induction pages with
  | nil => intro acc; simp [paginate_limited, pages_fetched_limited]
  | cons p rest ih =>
    intro acc
    by_cases hl : limit ≤ acc.length
    · simp [paginate_limited, pages_fetched_limited, hl]
    · by_cases h : pageHasNext p
      · simp only [paginate_limited, pages_fetched_limited, hl, h, if_pos, if_neg,
          ite_false, ite_true]
        rw [ih (acc ++ pageNodes p)]
        simp [List.append_assoc]
      · simp [paginate_limited, pages_fetched_limited, hl, h]

theorem paginate_limited_take {α : Type} (limit : Nat) (pages : List (Page α)) :
    ∀ acc : List α,
      (paginate_limited limit acc pages).take limit
        = (acc ++ paginate_all [] pages).take limit := by
  induction pages with
  | nil => intro acc; simp [paginate_limited, paginate_all]
  | cons p rest ih =>
    intro acc
    by_cases hl : limit ≤ acc.length
    · simp only [paginate_limited, hl, if_pos]
      rw [List.take_append_of_le_length hl]
    · by_cases h : pageHasNext p
      · simp only [paginate_limited, paginate_all, hl, h, if_pos, if_neg, ite_true,
          ite_false, List.nil_append]
        rw [ih (acc ++ pageNodes p), paginate_all_acc rest (pageNodes p)]
        simp [List.append_assoc]
      · simp [paginate_limited, paginate_all, hl, h]

theorem get_repositories_eq_take {α : Type} (limit : Nat) (pages : List (Page α)) :
    get_repositories limit pages = (get_organizations pages).take limit := by
  unfold get_repositories get_organizations
  rw [paginate_limited_take]
  simp

/-- Claim C1: for the fetches with a caller-specified limit `L`
(`get_repositories`, `get_starred_repos`), the loop stops as soon as the
accumulated count reaches `L` (conjunct 4), the returned list has length at
most `L` (conjuncts 1 and 6), it is the truncation of the page-by-page
accumulation to the limit (conjuncts 2 and 5, with conjunct 5 showing both
limited fetches agree), and it is a prefix of the unbounded page-by-page
accumulation (conjunct 3). -/
theorem limited_fetch_spec {α : Type} (limit : Nat) (pages : List (Page α)) :
    (get_repositories limit pages).length ≤ limit
    ∧ get_repositories limit pages = (get_organizations pages).take limit
    ∧ (get_repositories limit pages) <+: get_organizations pages
    ∧ (∀ acc : List α, limit ≤ acc.length → paginate_limited limit acc pages = acc)
    ∧ get_starred_repos limit pages = get_repositories limit pages
    ∧ (get_starred_repos limit pages).length ≤ limit := by
  refine ⟨?_, get_repositories_eq_take limit pages, ?_, ?_, rfl, ?_⟩
  · rw [get_repositories_eq_take]; simp
  · rw [get_repositories_eq_take]; exact List.take_prefix limit _
  · intro acc h
    cases pages with
    | nil => rfl
    | cons p rest => simp [paginate_limited, h]
  · rw [show get_starred_repos limit pages = get_repositories limit pages from rfl,
      get_repositories_eq_take]
    simp

/-- Witness for C1 at a concrete input: with the accumulator already at the
limit, the limited loop consumes no further page. -/
theorem limited_fetch_spec_witness :
    paginate_limited 1 [5, 6] [Page.mk (some [7]) (some (PageInfo.mk (some true)))] = [5, 6] :=
  (limited_fetch_spec 1 [Page.mk (some [7]) (some (PageInfo.mk (some true)))]).2.2.2.1
    [5, 6] (by decide)

/-- Counterexample to claim C2 as stated: for a limited fetch the final result
is truncated, so its length can be strictly less than the sum of the sizes of
the pages fetched.  Here `get_repositories` with limit 1 fetches one page of
two items and returns a single item. -/
theorem paginated_length_counterexample :
    (get_repositories 1 [Page.mk (some [10, 20]) (some (PageInfo.mk (some false)))]).length
      ≠ ((pages_fetched_limited 1 0
            [Page.mk (some [10, 20]) (some (PageInfo.mk (some false)))]).map
          (fun p => (pageNodes p).length)).sum := by
  decide

/-- Claim C2, amended: for the unlimited paginated fetches (organizations,
followers, following, gists) the final result is the concatenation of the
pages fetched, in order, with length the sum of the page sizes (conjuncts
1-5).  For the limited fetches (repositories, starred repositories) the same
holds for the pre-truncation accumulation (conjuncts 6-7), and the final
result is that accumulation truncated to the limit (conjuncts 8-9), so its
length is the minimum of the limit and the sum of the page sizes. -/
theorem paginate_concat_spec {α : Type} (limit : Nat) (pages : List (Page α)) :
    get_organizations pages = (pages_fetched pages).flatMap pageNodes
    ∧ (get_organizations pages).length
        = ((pages_fetched pages).map (fun p => (pageNodes p).length)).sum
    ∧ get_followers pages = get_organizations pages
    ∧ get_following pages = get_organizations pages
    ∧ get_gists pages = get_organizations pages
    ∧ paginate_limited limit [] pages
        = (pages_fetched_limited limit 0 pages).flatMap pageNodes
    ∧ (paginate_limited limit [] pages).length
        = ((pages_fetched_limited limit 0 pages).map (fun p => (pageNodes p).length)).sum
    ∧ get_repositories limit pages = (paginate_limited limit [] pages).take limit
    ∧ (get_repositories limit pages).length
        = min limit (paginate_limited limit [] pages).length := by
  have hflat : get_organizations pages = (pages_fetched pages).flatMap pageNodes :=
    paginate_all_eq_flat pages
  have hlim : paginate_limited limit [] pages
      = (pages_fetched_limited limit 0 pages).flatMap pageNodes := by
    simpa using paginate_limited_eq_flat limit pages []
  refine ⟨hflat, ?_, rfl, rfl, rfl, hlim, ?_, rfl, ?_⟩
  · rw [hflat, List.length_flatMap]; rfl
  · rw [hlim, List.length_flatMap]; rfl
  · unfold get_repositories
    simp [Nat.min_comm]

/-! ## Reporter: data model (`scripts/generate_reports.py`)

JSON records are embedded as structures.  A field is `Option`-valued when the
source reads it with a defaulting `dict.get` (or tests its truthiness); the
default is applied at each access site, mirroring the source.  `none` covers
both an absent key and a JSON `null` value. -/

/-- A GraphQL connection carrying only `totalCount`, read as
`x.get(field, {}).get("totalCount", 0)`. -/
structure Conn where
  totalCount : Option Nat
deriving DecidableEq

/-- An organization record, as it appears both in `organizations.json` and in
an enterprise's nested `organizations.nodes` list (the Reporter reads the same
four fields from both). -/
structure OrgNode where
  login : Option String
  description : Option String
  repositories : Option Conn
  membersWithRole : Option Conn
deriving DecidableEq

/-- The `organizations` connection of an enterprise: `totalCount` and the
nested `nodes` list. -/
structure OrgsConn where
  totalCount : Option Nat
  nodes : Option (List OrgNode)
deriving DecidableEq

/-- An enterprise record from `enterprises.json`. -/
structure Enterprise where
  name : Option String
  slug : Option String
  url : Option String
  organizations : Option OrgsConn
  members : Option Conn
  viewerIsAdmin : Option Bool
deriving DecidableEq

/-- The `primaryLanguage` object of a repository (`{ name }`). -/
structure Lang where
  name : Option String
deriving DecidableEq

/-- The `owner` object of a repository. -/
structure Owner where
  login : Option String
deriving DecidableEq

/-- A repository record from `repositories.json` (only the fields the
Reporter reads). -/
structure Repo where
  nameWithOwner : Option String
  isPrivate : Option Bool
  isFork : Option Bool
  isArchived : Option Bool
  primaryLanguage : Option Lang
  stargazerCount : Option Nat
  updatedAt : Option String
  owner : Option Owner
deriving DecidableEq

/-- The `counts` object of `summary.json`.  The Reporter reads the six listed
keys with direct indexing (so they are required fields) and `enterprises`
with `.get("enterprises", 0)` (so it is optional; `none` models an absent
key). -/
structure Counts where
  organizations : Nat
  repositories : Nat
  followers : Nat
  following : Nat
  starred_repos : Nat
  gists : Nat
  enterprises : Option Nat
deriving DecidableEq

/-- The `summary.json` record: `timestamp` is read with
`.get("timestamp", "Unknown")`, `user` is never read by the Reporter. -/
structure Summary where
  timestamp : Option String
  user : Option String
  counts : Counts
deriving DecidableEq

/-- The `user_info.json` record: loaded by `generate_readme` but never used,
so its shape is irrelevant; it is kept as a raw field list. -/
def UserInfo : Type := List (String × String)

/-! ## Reporter: helper computations -/

/-- Python substring containment `pat in s`. -/
def strContains (s pat : String) : Bool := decide (pat.toList <:+: s.toList)

/-- Python `.lower()`: lowercase character by character.  This is extensionally
`String.toLower` (which maps `Char.toLower` over the characters), spelled out
over the character list so that it reduces inside the kernel. -/
def lower (s : String) : String := String.mk (s.data.map Char.toLower)

/-- `x.get('repositories', {}).get('totalCount', 0)`, the sort key used for
organization tables. -/
def orgRepoCount (o : OrgNode) : Nat :=
  match o.repositories with
  | none => 0
  | some c => c.totalCount.getD 0

/-- `x.get('membersWithRole', {}).get('totalCount', 0)`. -/
def orgMemberCount (o : OrgNode) : Nat :=
  match o.membersWithRole with
  | none => 0
  | some c => c.totalCount.getD 0

/-- `ent.get('organizations', {}).get('nodes', [])`. -/
def entOrgNodes (e : Enterprise) : List OrgNode :=
  match e.organizations with
  | none => []
  | some c => c.nodes.getD []

/-- `org.get('description') or 'No description'` (Python `or`: both a missing
key / `null` and an empty string fall back to the default). -/
def descOr (d : Option String) : String :=
  match d with
  | none => "No description"
  | some s => if s.isEmpty then "No description" else s

/-- Insertion into a stable descending-by-key order: the new element is placed
before the first element whose key is not larger.  Used to model Python
`sorted(..., key=..., reverse=True)`, which is exactly the stable descending
sort; a stable sort is uniquely determined by the sortedness and stability
properties proved below, so this model agrees with CPython's sort. -/
def insertDesc {α : Type} (key : α → Nat) (x : α) : List α → List α
  | [] => [x]
  | y :: ys => if key y ≤ key x then x :: y :: ys else y :: insertDesc key x ys

/-- Stable descending sort by a `Nat` key (`sorted(..., key=..., reverse=True)`). -/
def sortByDesc {α : Type} (key : α → Nat) : List α → List α
  | [] => []
  | x :: xs => insertDesc key x (sortByDesc key xs)

/-- `sorted(org_list, key=..., reverse=True)[:10]`: the ten organizations
listed for a category (line 108). -/
def top10 (ls : List OrgNode) : List OrgNode :=
  (sortByDesc orgRepoCount ls).take 10

/-- One `defaultdict(int)`-style increment: `hist[k] += 1`, preserving
insertion order of keys. -/
def bump (m : List (String × Nat)) (k : String) : List (String × Nat) :=
  match m with
  | [] => [(k, 1)]
  | (k', v) :: rest => if k' = k then (k', v + 1) :: rest else (k', v) :: bump rest k

/-- Sum of the counts of a histogram (`sum(hist.values())`). -/
def histSum (m : List (String × Nat)) : Nat := (m.map Prod.snd).sum

/-! ## Reporter: `categorize_organizations` (lines 198-229) -/

/-- The fixed category dictionary keys, in insertion order (lines 200-208). -/
def category_names : List String :=
  ["Core Cognitive", "Zone Network", "RegimA Network", "O9 Network",
   "Echo Mirrors", "Special Purpose", "Other"]

/-- The category assigned to one organization: the login is lowercased once,
then tested by the `if`/`elif` chain of lines 213-226 (first match wins,
`Other` is the catch-all). -/
def categorize_login (login : String) : String :=
  let l := lower login
  if ["cog", "oz", "echo"].any (fun x => strContains l x) then "Core Cognitive"
  else if ["zone", "rez", "rzone"].any (fun x => strContains l x) then "Zone Network"
  else if strContains l "regima" then "RegimA Network"
  else if l.startsWith "o9" || l.startsWith "o6" || strContains l "e9" then "O9 Network"
  else if strContains l "org-echo" then "Echo Mirrors"
  else if ["unicorn", "cosmic", "kaw", "hyper", "marduk", "gnn"].any
      (fun x => strContains l x) then "Special Purpose"
  else "Other"

/-- One iteration of the categorization loop: append the organization to the
bucket of its category (`categories[...].append(org)`). -/
def categorize_step (cats : List (String × List OrgNode)) (org : OrgNode) :
    List (String × List OrgNode) :=
  cats.map (fun p =>
    if p.1 = categorize_login (org.login.getD "") then (p.1, p.2 ++ [org]) else p)

/-- `categorize_organizations`: fill the fixed ordered buckets, then drop the
empty ones (`{k: v for k, v in categories.items() if v}`, line 229). -/
def categorize_organizations (orgs : List OrgNode) : List (String × List OrgNode) :=
  (orgs.foldl categorize_step (category_names.map (fun c => (c, [])))).filter
    (fun p => !p.2.isEmpty)

/-! ## Reporter: `analyze_repositories` (lines 232-265) -/

/-- The statistics record built by `analyze_repositories`.  The Python keys
`public` and `private` are renamed `publicCount` / `privateCount`
(`private` is a Lean keyword). -/
structure RepoStats where
  publicCount : Nat
  privateCount : Nat
  forks : Nat
  original : Nat
  archived : Nat
  languages : List (String × Nat)
  by_owner : List (String × Nat)
deriving DecidableEq

/-- One iteration of the `analyze_repositories` loop (lines 244-263). -/
def analyze_step (s : RepoStats) (r : Repo) : RepoStats :=
  let s1 := if r.isPrivate.getD false then { s with privateCount := s.privateCount + 1 }
    else { s with publicCount := s.publicCount + 1 }
  let s2 := if r.isFork.getD false then { s1 with forks := s1.forks + 1 }
    else { s1 with original := s1.original + 1 }
  let s3 := if r.isArchived.getD false then { s2 with archived := s2.archived + 1 }
    else s2
  let s4 := match r.primaryLanguage with
    | some lang => { s3 with languages := bump s3.languages (lang.name.getD "Unknown") }
    | none => s3
  let ownerLogin := match r.owner with
    | none => "Unknown"
    | some o => o.login.getD "Unknown"
  { s4 with by_owner := bump s4.by_owner ownerLogin }

/-- `analyze_repositories`: a single pass over the repository list starting
from all-zero statistics. -/
def analyze_repositories (repos : List Repo) : RepoStats :=
  repos.foldl analyze_step (RepoStats.mk 0 0 0 0 0 [] [])

/-! ## Reporter: `map_orgs_to_enterprises` (lines 184-195) -/

/-- The value stored in the enterprise mapping
(`{'enterprise_name': ..., 'enterprise_slug': ...}`). -/
structure EnterpriseRef where
  enterprise_name : String
  enterprise_slug : String
deriving DecidableEq

/-- Python dict assignment `m[k] = v` on an association list: overwrite the
binding if the key is present (keys are unique in a dict, so overwriting the
first occurrence suffices), else append the new binding. -/
def dict_set {κ ν : Type} [BEq κ] (m : List (κ × ν)) (k : κ) (v : ν) : List (κ × ν) :=
  match m with
  | [] => [(k, v)]
  | (k', v') :: rest => if k' == k then (k, v) :: rest else (k', v') :: dict_set rest k v

/-- `map_orgs_to_enterprises`: flatten each enterprise's nested organization
list into a login → enterprise name/slug mapping.  The key is `org.get('login')`
(no default, hence `Option String`); a login under several enterprises is
silently overwritten by the one processed last. -/
def map_orgs_to_enterprises (enterprises : List Enterprise) :
    List (Option String × EnterpriseRef) :=
  enterprises.foldl
    (fun mapping ent =>
      (entOrgNodes ent).foldl
        (fun m o =>
          dict_set m o.login (EnterpriseRef.mk (ent.name.getD "Unknown") (ent.slug.getD "")))
        mapping)
    []

/-! ## Reporter: `generate_readme` (lines 24-181)

The README content is the sequence of `content += ...` pieces, in source
order.  Chunk boundaries below are chosen at interpolation points of the
source f-strings; the concatenation of the chunks is the full document. -/

/-- `f"{count / total_with_lang * 100:.1f}"` (line 135-136), with `pct = 0`
when `total_with_lang` is 0.  Float division and formatting are modelled by
exact rational rounding to one decimal (half away from zero); no claim
depends on the digits produced, only on this being a function of its
arguments. -/
def pct1 (count total : Nat) : String :=
  if total = 0 then "0.0"
  else
    let tenths := (count * 2000 + total) / (2 * total)
    toString (tenths / 10) ++ "." ++ toString (tenths % 10)

/-- Lines 46-49 of the template. -/
def headerIntro : String :=
  "# DrZone - Ecosystem Dashboard\n\n> Automated ecosystem tracking for the drzo GitHub network\n\n"

/-- Line 50: `**Last Updated:** {summary.get('timestamp', 'Unknown')}`. -/
def lastUpdatedChunk (s : Summary) : String :=
  "**Last Updated:** " ++ s.timestamp.getD "Unknown"

/-- Lines 51-55 of the template. -/
def overviewPrefix : String :=
  "\n\n## 📊 Overview\n\n| Metric | Count |\n|--------|-------|\n"

/-- Line 56: `| Enterprises | {summary['counts'].get('enterprises', 0)} |`. -/
def enterprisesCountRow (c : Counts) : String :=
  "| Enterprises | " ++ toString (c.enterprises.getD 0) ++ " |"

/-- Lines 57-66 of the template (the six required counts). -/
def overviewRest (c : Counts) : String :=
  "\n| Organizations | " ++ toString c.organizations ++ " |\n| Repositories | "
  ++ toString c.repositories ++ " |\n| Followers | " ++ toString c.followers
  ++ " |\n| Following | " ++ toString c.following ++ " |\n| Starred Repos | "
  ++ toString c.starred_repos ++ " |\n| Gists | " ++ toString c.gists
  ++ " |\n\n## 🏛️ Enterprises\n\n"

/-- One row of the enterprise table (lines 71-78). -/
def ent_row (ent : Enterprise) : String :=
  let name := ent.name.getD "Unknown"
  let slug := ent.slug.getD ""
  let url := ent.url.getD ("https://github.com/enterprises/" ++ slug)
  let orgCount := match ent.organizations with
    | none => 0
    | some c => c.totalCount.getD 0
  let memberCount := match ent.members with
    | none => 0
    | some c => c.totalCount.getD 0
  let isAdmin := if ent.viewerIsAdmin.getD false then "✅" else "❌"
  "| [" ++ name ++ "](" ++ url ++ ") | `" ++ slug ++ "` | " ++ toString orgCount
    ++ " | " ++ toString memberCount ++ " | " ++ isAdmin ++ " |\n"

/-- One row of an enterprise's organization table (lines 89-94; description
truncated to 40 characters). -/
def ent_org_row (org : OrgNode) : String :=
  let login := org.login.getD "Unknown"
  "| [" ++ login ++ "](https://github.com/" ++ login ++ ") | "
    ++ toString (orgRepoCount org) ++ " | " ++ toString (orgMemberCount org) ++ " | "
    ++ (descOr org.description).take 40 ++ " |\n"

/-- The per-enterprise block of the mapping section (lines 81-95): empty when
the enterprise has no nested organizations; rows sorted by repository count
descending. -/
def ent_mapping_block (ent : Enterprise) : String :=
  let entOrgs := entOrgNodes ent
  if entOrgs.isEmpty then ""
  else "#### " ++ ent.name.getD "Unknown" ++ " (`" ++ ent.slug.getD "" ++ "`)\n\n"
    ++ "| Organization | Repos | Members | Description |\n|--------------|-------|---------|-------------|\n"
    ++ String.join ((sortByDesc orgRepoCount entOrgs).map ent_org_row)
    ++ "\n"

/-- Lines 68-97: the enterprises tables, or the no-data note when the
`enterprises` list is empty (falsy). -/
def enterprisesSection (ents : List Enterprise) : String :=
  if ents.isEmpty then "*No enterprise data available*\n\n"
  else "| Enterprise | Slug | Organizations | Members | Admin |"
    ++ "\n|------------|------|---------------|---------|-------|\n"
    ++ String.join (ents.map ent_row)
    ++ "\n### Enterprise → Organization Mapping\n\n"
    ++ String.join (ents.map ent_mapping_block)

/-- One row of a category table (lines 108-113; description truncated to 50
characters). -/
def category_org_row (org : OrgNode) : String :=
  let name := org.login.getD "Unknown"
  "| [" ++ name ++ "](https://github.com/" ++ name ++ ") | "
    ++ toString (orgRepoCount org) ++ " | " ++ toString (orgMemberCount org) ++ " | "
    ++ (descOr org.description).take 50 ++ " |\n"

/-- One category block (lines 103-114): skipped when the bucket is empty,
otherwise the top ten organizations by repository count. -/
def category_block (p : String × List OrgNode) : String :=
  if p.2.isEmpty then ""
  else "### " ++ p.1 ++ "\n\n| Organization | Repos | Members | Description |\n|--------------|-------|---------|-------------|\n"
    ++ String.join ((top10 p.2).map category_org_row)
    ++ "\n"

/-- The organization-categories section body (lines 103-114). -/
def categoriesSection (orgs : List OrgNode) : String :=
  String.join ((categorize_organizations orgs).map category_block)

/-- One row of the top-languages table (line 136). -/
def lang_row (total : Nat) (p : String × Nat) : String :=
  "| " ++ p.1 ++ " | " ++ toString p.2 ++ " | " ++ pct1 p.2 total ++ "% |\n"

/-- Lines 116-136: the repository statistics table and the top-ten languages
table (`total_with_lang = sum(repo_stats['languages'].values())`, line 133). -/
def repoStatsSection (repos : List Repo) : String :=
  let stats := analyze_repositories repos
  let total := histSum stats.languages
  "## 💻 Repository Statistics\n\n| Metric | Value |\n|--------|-------|\n| Total Repositories | "
  ++ toString repos.length ++ " |\n| Public | " ++ toString stats.publicCount
  ++ " |\n| Private | " ++ toString stats.privateCount ++ " |\n| Forks | "
  ++ toString stats.forks ++ " |\n| Original | " ++ toString stats.original
  ++ " |\n| Archived | " ++ toString stats.archived
  ++ " |\n\n### Top Languages\n\n| Language | Count | Percentage |\n|----------|-------|------------|\n"
  ++ String.join (((sortByDesc Prod.snd stats.languages).take 10).map (lang_row total))

/-- One row of the recently-updated table (lines 145-151). -/
def recent_repo_row (r : Repo) : String :=
  let name := r.nameWithOwner.getD "Unknown"
  let langName := match r.primaryLanguage with
    | none => "Unknown"
    | some l => l.name.getD "Unknown"
  "| [" ++ name ++ "](https://github.com/" ++ name ++ ") | " ++ langName ++ " | "
    ++ toString (r.stargazerCount.getD 0) ++ " | " ++ (r.updatedAt.getD "").take 10 ++ " |\n"

/-- Lines 138-143 of the template. -/
def recentReposHeader : String :=
  "\n### Recently Updated Repositories\n\n| Repository | Language | Stars | Updated |\n|------------|----------|-------|---------|\n"

/-- Lines 153-176: the static data-files, schedule and footer block. -/
def staticTail : String :=
  "\n## 📁 Data Files\n\nThe following data files are automatically updated:\n\n- [`data/summary.json`](data/summary.json) - Overview statistics\n- [`data/enterprises.json`](data/enterprises.json) - Enterprise details\n- [`data/organizations.json`](data/organizations.json) - Organization details\n- [`data/repositories.json`](data/repositories.json) - Repository listings\n- [`data/followers.json`](data/followers.json) - Follower information\n- [`data/following.json`](data/following.json) - Following information\n- [`data/starred_repos.json`](data/starred_repos.json) - Starred repositories\n- [`data/gists.json`](data/gists.json) - Gist information\n\n## 🔄 Update Schedule\n\nThis dashboard is automatically updated every **Sunday at 00:00 UTC** via GitHub Actions.\n\nYou can also trigger a manual update from the [Actions tab](../../actions/workflows/update-ecosystem.yml).\n\n---\n\n*Generated by [DrZone Ecosystem Tracker](https://github.com/cogcities/drzone)*\n"

/-- The full README content built by `generate_readme` (lines 46-176), as a
function of the four snapshot inputs.  `map_orgs_to_enterprises` is also
computed by the source (line 43) but its result is never used in the content. -/
def render (s : Summary) (ents : List Enterprise) (orgs : List OrgNode)
    (repos : List Repo) : String :=
  headerIntro ++ lastUpdatedChunk s ++ overviewPrefix ++ enterprisesCountRow s.counts
  ++ overviewRest s.counts ++ enterprisesSection ents
  ++ "## 🏢 Organization Categories\n\n" ++ categoriesSection orgs
  ++ repoStatsSection repos ++ recentReposHeader
  ++ String.join ((repos.take 15).map recent_repo_row)
  ++ staticTail

/-- `generate_readme` (lines 24-181): the five `load_json` results become
parameters (`none` = file absent); `now` is the wall-clock time available to
the process (never read by this function).  The first component is the
content written to `README.md` (`none` = no write), the second the lines
printed. -/
def generate_readme (user_info : Option UserInfo) (summary : Option Summary)
    (enterprises : Option (List Enterprise)) (organizations : Option (List OrgNode))
    (repositories : Option (List Repo)) (now : String) : Option String × List String :=
  let ents := enterprises.getD []
  let orgs := organizations.getD []
  let repos := repositories.getD []
  match summary with
  | none => (none, ["No summary data found, skipping README generation"])
  | some s => (some (render s ents orgs repos), ["Generated README.md"])

/-! ## Collector: the summary record (`query_ecosystem.py` lines 392-404) -/

/-- The summary written by the Collector: a timestamp
(`datetime.utcnow().isoformat() + "Z"`), the user login, and exactly six
counts — the lengths of the six collected lists.  No `enterprises` key is
written (`enterprises := none`). -/
def make_summary {φ γ σ τ : Type} (isoNow : String) (user : Option String)
    (orgs : List OrgNode) (repos : List Repo) (followers : List φ)
    (following : List γ) (starred : List σ) (gists : List τ) : Summary :=
  { timestamp := some (isoNow ++ "Z"), user := user,
    counts := { organizations := orgs.length,
                repositories := repos.length,
                followers := followers.length,
                following := following.length,
                starred_repos := starred.length,
                gists := gists.length,
                enterprises := none } }

/-! ## Properties of the stable descending sort -/

theorem insertDesc_perm {α : Type} (key : α → Nat) (x : α) (l : List α) :
    List.Perm (insertDesc key x l) (x :: l) := by
  induction l with
  | nil => simp [insertDesc]
  | cons y ys ih =>
    by_cases h : key y ≤ key x
    · simp [insertDesc, h]
    · simp only [insertDesc, h, ite_false]
      exact (ih.cons y).trans (List.Perm.swap x y ys)

theorem sortByDesc_perm {α : Type} (key : α → Nat) (l : List α) :
    List.Perm (sortByDesc key l) l := by
  induction l with
  | nil => simp [sortByDesc]
  | cons x xs ih => exact (insertDesc_perm key x _).trans (ih.cons x)

theorem insertDesc_pairwise {α : Type} (key : α → Nat) (x : α) (l : List α)
    (h : l.Pairwise (fun a b => key b ≤ key a)) :
    (insertDesc key x l).Pairwise (fun a b => key b ≤ key a) := by
  induction l with
  | nil => simp [insertDesc]
  | cons y ys ih =>
    rcases List.pairwise_cons.mp h with ⟨hy, hys⟩
    by_cases hxy : key y ≤ key x
    · simp only [insertDesc, hxy, ite_true]
      refine List.pairwise_cons.mpr ⟨?_, h⟩
      intro b hb
      rcases List.mem_cons.mp hb with hb | hb
      · exact hb ▸ hxy
      · exact (hy b hb).trans hxy
    · simp only [insertDesc, hxy, ite_false]
      refine List.pairwise_cons.mpr ⟨?_, ih hys⟩
      intro b hb
      rcases List.mem_cons.mp ((insertDesc_perm key x ys).mem_iff.mp hb) with hb | hb
      · exact hb ▸ Nat.le_of_lt (Nat.lt_of_not_le hxy)
      · exact hy b hb

theorem sortByDesc_pairwise {α : Type} (key : α → Nat) (l : List α) :
    (sortByDesc key l).Pairwise (fun a b => key b ≤ key a) := by
  induction l with
  | nil => simp [sortByDesc]
  | cons x xs ih => exact insertDesc_pairwise key x _ ih

theorem insertDesc_filter {α : Type} (key : α → Nat) (x : α) (l : List α) (n : Nat) :
    (insertDesc key x l).filter (fun o => key o == n)
      = if key x = n then x :: l.filter (fun o => key o == n)
        else l.filter (fun o => key o == n) := by
  induction l with
  | nil =>
    by_cases hxn : key x = n <;> simp [insertDesc, List.filter_cons, hxn]
  | cons y ys ih =>
    by_cases hxy : key y ≤ key x
    · rw [show insertDesc key x (y :: ys) = x :: y :: ys from by simp [insertDesc, hxy]]
      by_cases hxn : key x = n <;> by_cases hyn : key y = n <;>
        simp [List.filter_cons, hxn, hyn]
    · rw [show insertDesc key x (y :: ys) = y :: insertDesc key x ys from by
        simp [insertDesc, hxy]]
      have hlt : key x < key y := Nat.lt_of_not_le hxy
      by_cases hxn : key x = n
      · have hyn : ¬ key y = n := by omega
        simp [List.filter_cons, hxn, hyn, ih]
      · by_cases hyn : key y = n <;> simp [List.filter_cons, hxn, hyn, ih]

theorem sortByDesc_filter {α : Type} (key : α → Nat) (l : List α) (n : Nat) :
    (sortByDesc key l).filter (fun o => key o == n) = l.filter (fun o => key o == n) := by
  induction l with
  | nil => simp [sortByDesc]
  | cons x xs ih =>
    rw [sortByDesc, insertDesc_filter]
    by_cases hxn : key x = n <;> simp [hxn, List.filter_cons, ih]

/-- Claim C7: for every rendered organization category `(c, ls)`, the listed
organizations are `top10 ls`, the first ten entries of the stable descending
sort of the bucket by repository `totalCount` (conjunct 1); that sort is a
permutation of the bucket (conjunct 2), descending in the key (conjunct 3),
and stable — organizations with equal repository counts keep their original
input order, stated as filter-preservation per key value (conjunct 4); at
most ten are listed (conjunct 5) and every unlisted organization has a count
at most that of every listed one (conjunct 6). -/
theorem rendered_category_top10 (orgs : List OrgNode) (c : String) (ls : List OrgNode)
    (h : (c, ls) ∈ categorize_organizations orgs) :
    top10 ls = (sortByDesc orgRepoCount ls).take 10
    ∧ List.Perm (sortByDesc orgRepoCount ls) ls
    ∧ (sortByDesc orgRepoCount ls).Pairwise (fun a b => orgRepoCount b ≤ orgRepoCount a)
    ∧ (∀ n : Nat, (sortByDesc orgRepoCount ls).filter (fun o => orgRepoCount o == n)
        = ls.filter (fun o => orgRepoCount o == n))
    ∧ (top10 ls).length ≤ 10
    ∧ ∀ a ∈ sortByDesc orgRepoCount ls, a ∉ top10 ls →
        ∀ b ∈ top10 ls, orgRepoCount a ≤ orgRepoCount b := by
  refine ⟨rfl, sortByDesc_perm _ _, sortByDesc_pairwise _ _,
    fun n => sortByDesc_filter _ _ _, by simp [top10], ?_⟩
  intro a ha hna b hb
  have hsplit : (sortByDesc orgRepoCount ls).take 10 ++ (sortByDesc orgRepoCount ls).drop 10
      = sortByDesc orgRepoCount ls := List.take_append_drop 10 _
  have hpw : ((sortByDesc orgRepoCount ls).take 10
      ++ (sortByDesc orgRepoCount ls).drop 10).Pairwise
        (fun a b => orgRepoCount b ≤ orgRepoCount a) := by
    rw [hsplit]; exact sortByDesc_pairwise _ _
  have hmem : a ∈ (sortByDesc orgRepoCount ls).take 10
      ++ (sortByDesc orgRepoCount ls).drop 10 := by rw [hsplit]; exact ha
  rcases List.mem_append.mp hmem with h1 | h2
  · exact absurd h1 hna
  · exact (List.pairwise_append.mp hpw).2.2 b hb a h2

/-- Witness for C7: the scenario from the specification, a single organization
`cogcities` with 12 repositories, landing in the `Core Cognitive` bucket. -/
theorem rendered_category_top10_witness :
    List.Perm
      (sortByDesc orgRepoCount [OrgNode.mk (some "cogcities") none (some (Conn.mk (some 12))) none])
      [OrgNode.mk (some "cogcities") none (some (Conn.mk (some 12))) none] :=
  (rendered_category_top10
    [OrgNode.mk (some "cogcities") none (some (Conn.mk (some 12))) none]
    "Core Cognitive"
    [OrgNode.mk (some "cogcities") none (some (Conn.mk (some 12))) none]
    (by decide)).2.1

/-! ## Properties of the categorization -/

theorem foldl_categorize_step (orgs : List OrgNode) :
    ∀ cats : List (String × List OrgNode),
      orgs.foldl categorize_step cats
        = cats.map (fun p => (p.1,
            p.2 ++ orgs.filter (fun o => categorize_login (o.login.getD "") == p.1))) := by
  induction orgs with
  | nil => intro cats; simp
  | cons o os ih =>
    intro cats
    rw [List.foldl_cons, ih (categorize_step cats o)]
    unfold categorize_step
    rw [List.map_map]
    apply List.map_congr_left
    intro p _
    by_cases hp : p.1 = categorize_login (o.login.getD "")
    · simp only [Function.comp, hp, if_pos, ite_true, List.filter_cons]
      rw [show (categorize_login (o.login.getD "") == categorize_login (o.login.getD ""))
        = true from by simp]
      simp [List.append_assoc]
    · simp only [Function.comp, hp, ite_false, List.filter_cons]
      rw [show (categorize_login (o.login.getD "") == p.1) = false from by
        simp [Ne.symm hp]]
      simp

theorem categorize_organizations_eq (orgs : List OrgNode) :
    categorize_organizations orgs
      = (category_names.map (fun c =>
          (c, orgs.filter (fun o => categorize_login (o.login.getD "") == c)))).filter
          (fun p => !p.2.isEmpty) := by
  unfold categorize_organizations
  rw [foldl_categorize_step, List.map_map]
  congr 1

theorem categorize_login_mem (login : String) : categorize_login login ∈ category_names := by
  simp only [categorize_login]
  split_ifs <;> simp [category_names]

theorem categorize_login_lower (l₁ l₂ : String) (h : lower l₁ = lower l₂) :
    categorize_login l₁ = categorize_login l₂ := by
  unfold categorize_login
  rw [h]

/-- Claim C3: categorization is total — every organization of the input list
occurs in exactly one bucket of `categorize_organizations` (conjunct 1), the
category assigned to it is one of the fixed names, with `Other` the catch-all
reached when no rule matches (conjunct 2), and the assignment depends only on
the lowercased login string (conjunct 3). -/
theorem categorize_organizations_total (orgs : List OrgNode) (o : OrgNode)
    (ho : o ∈ orgs) :
    (∃! c : String, ∃ ls, (c, ls) ∈ categorize_organizations orgs ∧ o ∈ ls)
    ∧ categorize_login (o.login.getD "") ∈ category_names
    ∧ ∀ l : String, lower l = lower (o.login.getD "") →
        categorize_login l = categorize_login (o.login.getD "") := by
  have hchar := categorize_organizations_eq orgs
  refine ⟨?_, categorize_login_mem _, fun l hl => categorize_login_lower _ _ hl⟩
  have homem : o ∈ orgs.filter
      (fun o' => categorize_login (o'.login.getD "") == categorize_login (o.login.getD "")) :=
    List.mem_filter.mpr ⟨ho, by simp⟩
  have hmem : (categorize_login (o.login.getD ""),
      orgs.filter (fun o' => categorize_login (o'.login.getD "")
        == categorize_login (o.login.getD ""))) ∈ categorize_organizations orgs := by
    rw [hchar]
    refine List.mem_filter.mpr ⟨List.mem_map.mpr
      ⟨categorize_login (o.login.getD ""), categorize_login_mem _, rfl⟩, ?_⟩
    simp only [Bool.not_eq_true']
    exact List.isEmpty_eq_false_iff_exists_mem.mpr ⟨o, homem⟩
  refine ⟨categorize_login (o.login.getD ""), ⟨_, hmem, homem⟩, ?_⟩
  rintro c ⟨ls, hcmem, hols⟩
  rw [hchar] at hcmem
  obtain ⟨hmap, _⟩ := List.mem_filter.mp hcmem
  obtain ⟨c', _, heq⟩ := List.mem_map.mp hmap
  rw [Prod.mk.injEq] at heq
  obtain ⟨hc, hls⟩ := heq
  rw [← hls] at hols
  have hbeq := (List.mem_filter.mp hols).2
  simp only [beq_iff_eq] at hbeq
  rw [← hc]
  exact hbeq.symm

/-- Witness for C3: the specification scenario organization `cogcities` lands
in exactly one bucket. -/
theorem categorize_organizations_total_witness :
    ∃! c : String, ∃ ls,
      (c, ls) ∈ categorize_organizations
        [OrgNode.mk (some "cogcities") none (some (Conn.mk (some 12))) none]
      ∧ OrgNode.mk (some "cogcities") none (some (Conn.mk (some 12))) none ∈ ls :=
  (categorize_organizations_total
    [OrgNode.mk (some "cogcities") none (some (Conn.mk (some 12))) none]
    (OrgNode.mk (some "cogcities") none (some (Conn.mk (some 12))) none)
    (by decide)).1

theorem strContains_of_infix (s p q : String) (hpq : q.toList <:+: p.toList)
    (h : strContains s p = true) : strContains s q = true := by
  unfold strContains at h ⊢
  exact decide_eq_true (hpq.trans (of_decide_eq_true h))

/-- Claim C9: the `Echo Mirrors` rule is dead code.  Its test `'org-echo' in
login` implies `'echo' in login`, which is already captured by the first
(`Core Cognitive`) rule, so no login is ever assigned `Echo Mirrors`
(conjunct 1) and the category never appears among the rendered buckets
(conjunct 2). -/
theorem echo_mirrors_unreachable :
    (∀ login : String, categorize_login login ≠ "Echo Mirrors")
    ∧ ∀ orgs : List OrgNode,
        "Echo Mirrors" ∉ (categorize_organizations orgs).map Prod.fst := by
  have key : ∀ login : String, categorize_login login ≠ "Echo Mirrors" := by
    intro login
    simp only [categorize_login]
    split_ifs with h1 h2 h3 h4 h5 h6 <;> try simp
    have hecho : strContains (lower login) "echo" = true :=
      strContains_of_infix _ _ _ (by decide) h5
    have hany : (["cog", "oz", "echo"].any fun x => strContains (lower login) x) = true := by
      simp only [List.any_eq_true]
      exact ⟨"echo", by simp, hecho⟩
    exact h1 hany
  refine ⟨key, fun orgs hmem => ?_⟩
  rw [categorize_organizations_eq] at hmem
  obtain ⟨p, hp, hfst⟩ := List.mem_map.mp hmem
  obtain ⟨hpmap, hpne⟩ := List.mem_filter.mp hp
  obtain ⟨c, _, hceq⟩ := List.mem_map.mp hpmap
  rw [Prod.mk.injEq] at hceq
  obtain ⟨hc, hls⟩ := hceq
  have hnil : orgs.filter (fun o => categorize_login (o.login.getD "") == c) = [] := by
    apply List.filter_eq_nil_iff.mpr
    intro o _
    simp only [beq_iff_eq]
    rw [hc, hfst]
    exact key (o.login.getD "")
  rw [← hls, hnil] at hpne
  simp at hpne

/-! ## Properties of the repository statistics -/

theorem histSum_bump (m : List (String × Nat)) (k : String) :
    histSum (bump m k) = histSum m + 1 := by
  induction m with
  | nil => simp [bump, histSum]
  | cons p rest ih =>
    obtain ⟨k', v⟩ := p
    by_cases h : k' = k
    · simp [bump, h, histSum]
      omega
    · simp [bump, h, histSum] at ih ⊢
      omega

theorem analyze_step_fields (s : RepoStats) (r : Repo) :
    (analyze_step s r).publicCount = s.publicCount + (if r.isPrivate.getD false then 0 else 1)
    ∧ (analyze_step s r).privateCount
        = s.privateCount + (if r.isPrivate.getD false then 1 else 0)
    ∧ (analyze_step s r).forks = s.forks + (if r.isFork.getD false then 1 else 0)
    ∧ (analyze_step s r).original = s.original + (if r.isFork.getD false then 0 else 1)
    ∧ (analyze_step s r).archived = s.archived + (if r.isArchived.getD false then 1 else 0)
    ∧ histSum (analyze_step s r).languages
        = histSum s.languages + (if r.primaryLanguage.isSome then 1 else 0) := by
  cases hp : r.isPrivate.getD false <;> cases hf : r.isFork.getD false <;>
    cases ha : r.isArchived.getD false <;> cases hl : r.primaryLanguage <;>
      simp [analyze_step, hp, hf, ha, hl, histSum_bump]

theorem analyze_foldl (repos : List Repo) :
    ∀ s : RepoStats,
      (repos.foldl analyze_step s).publicCount
          = s.publicCount + repos.countP (fun r => !(r.isPrivate.getD false))
      ∧ (repos.foldl analyze_step s).privateCount
          = s.privateCount + repos.countP (fun r => r.isPrivate.getD false)
      ∧ (repos.foldl analyze_step s).forks
          = s.forks + repos.countP (fun r => r.isFork.getD false)
      ∧ (repos.foldl analyze_step s).original
          = s.original + repos.countP (fun r => !(r.isFork.getD false))
      ∧ (repos.foldl analyze_step s).archived
          = s.archived + repos.countP (fun r => r.isArchived.getD false)
      ∧ histSum (repos.foldl analyze_step s).languages
          = histSum s.languages + repos.countP (fun r => r.primaryLanguage.isSome) := by
  induction repos with
  | nil => intro s; simp
  | cons r rs ih =>
    intro s
    obtain ⟨h1, h2, h3, h4, h5, h6⟩ := ih (analyze_step s r)
    obtain ⟨g1, g2, g3, g4, g5, g6⟩ := analyze_step_fields s r
    refine ⟨?_, ?_, ?_, ?_, ?_, ?_⟩
    · rw [List.foldl_cons, h1, g1, List.countP_cons]
      cases r.isPrivate.getD false <;> simp <;> omega
    · rw [List.foldl_cons, h2, g2, List.countP_cons]
      cases r.isPrivate.getD false <;> simp <;> omega
    · rw [List.foldl_cons, h3, g3, List.countP_cons]
      cases r.isFork.getD false <;> simp <;> omega
    · rw [List.foldl_cons, h4, g4, List.countP_cons]
      cases r.isFork.getD false <;> simp <;> omega
    · rw [List.foldl_cons, h5, g5, List.countP_cons]
      cases r.isArchived.getD false <;> simp <;> omega
    · rw [List.foldl_cons, h6, g6, List.countP_cons]
      cases hl : r.primaryLanguage.isSome <;> simp [hl] <;> omega

theorem countP_not_add {α : Type} (p : α → Bool) (l : List α) :
    l.countP (fun a => !(p a)) + l.countP p = l.length := by
  induction l with
  | nil => simp
  | cons a t ih =>
    cases h : p a <;> simp [List.countP_cons, h] <;> omega

/-- Claim C4: the single-pass repository statistics are consistent — public
and private counts sum to the total (conjunct 1), fork and original counts
sum to the total (conjunct 2), the summed language histogram never exceeds
the total (conjunct 3), and it equals the total minus the number of
repositories without a primary language (conjunct 4). -/
theorem analyze_repositories_consistent (repos : List Repo) :
    (analyze_repositories repos).publicCount + (analyze_repositories repos).privateCount
        = repos.length
    ∧ (analyze_repositories repos).forks + (analyze_repositories repos).original
        = repos.length
    ∧ histSum (analyze_repositories repos).languages ≤ repos.length
    ∧ histSum (analyze_repositories repos).languages
        = repos.length - (repos.filter (fun r => r.primaryLanguage.isNone)).length := by
  obtain ⟨h1, h2, h3, h4, h5, h6⟩ := analyze_foldl repos (RepoStats.mk 0 0 0 0 0 [] [])
  unfold analyze_repositories
  rw [h1, h2, h3, h4, h6]
  have hpub := countP_not_add (fun r : Repo => r.isPrivate.getD false) repos
  have hfork := countP_not_add (fun r : Repo => r.isFork.getD false) repos
  have hlang := countP_not_add (fun r : Repo => r.primaryLanguage.isNone) repos
  have hsome : repos.countP (fun r => r.primaryLanguage.isSome)
      = repos.countP (fun r => !(r.primaryLanguage.isNone)) := by
    apply List.countP_congr
    intro r _
    cases r.primaryLanguage <;> simp
  have hfilt : (repos.filter (fun r => r.primaryLanguage.isNone)).length
      = repos.countP (fun r => r.primaryLanguage.isNone) :=
    (List.countP_eq_length_filter _ _).symm
  simp only [histSum, List.map_nil, List.sum_nil, Nat.zero_add, hsome, hfilt]
  omega

/-! ## Properties of the rendering -/

theorem render_decomp (s : Summary) (ents : List Enterprise) (orgs : List OrgNode)
    (repos : List Repo) :
    render s ents orgs repos
      = headerIntro ++ (lastUpdatedChunk s ++ (overviewPrefix ++ (enterprisesCountRow s.counts
        ++ (overviewRest s.counts ++ (enterprisesSection ents
        ++ ("## 🏢 Organization Categories\n\n" ++ (categoriesSection orgs
        ++ (repoStatsSection repos ++ (recentReposHeader
        ++ (String.join ((repos.take 15).map recent_repo_row) ++ staticTail)))))))))) := by
  simp [render, String.append_assoc]

theorem enterprisesSection_cons (e : Enterprise) (es : List Enterprise) :
    enterprisesSection (e :: es)
      = "| Enterprise | Slug | Organizations | Members | Admin |"
        ++ ("\n|------------|------|---------------|---------|-------|\n"
        ++ (String.join ((e :: es).map ent_row)
        ++ ("\n### Enterprise → Organization Mapping\n\n"
        ++ String.join ((e :: es).map ent_mapping_block)))) := by
  unfold enterprisesSection
  rw [show (e :: es).isEmpty = false from rfl]
  simp only [Bool.false_eq_true, if_false, String.append_assoc]

/-- Claim C6: when the summary snapshot is absent the Reporter writes nothing
(conjunct 1) and prints exactly the skip message (conjunct 2); in particular
no derived computation is reached and the run terminates normally (the model
is a total function). -/
theorem reporter_skips_without_summary (ui : Option UserInfo)
    (ents : Option (List Enterprise)) (orgs : Option (List OrgNode))
    (repos : Option (List Repo)) (now : String) :
    (generate_readme ui none ents orgs repos now).1 = none
    ∧ (generate_readme ui none ents orgs repos now).2
        = ["No summary data found, skipping README generation"] :=
  ⟨rfl, rfl⟩

/-- Counterexample to claim C5 as stated: the source never reads the clock in
`generate_readme`; the header timestamp is `summary.get('timestamp')`, a
snapshot value.  Two renders of identical snapshot inputs at different wall
clock times are fully identical (conjunct 1) even though the wall-clock times
differ (conjunct 2), and the header field carries the snapshot timestamp,
which equals neither render time (conjuncts 3-4) — contradicting the claim
that the header carries the current render timestamp and differs between the
two renders. -/
theorem render_timestamp_counterexample :
    generate_readme none
        (some (Summary.mk (some "2024-05-05T00:00:00Z") (some "drzo")
          (Counts.mk 1 2 3 4 5 6 none)))
        (some []) (some []) (some []) "2025-01-01T00:00:00Z"
      = generate_readme none
        (some (Summary.mk (some "2024-05-05T00:00:00Z") (some "drzo")
          (Counts.mk 1 2 3 4 5 6 none)))
        (some []) (some []) (some []) "2026-06-06T00:00:00Z"
    ∧ ("2025-01-01T00:00:00Z" : String) ≠ "2026-06-06T00:00:00Z"
    ∧ (Summary.mk (some "2024-05-05T00:00:00Z") (some "drzo")
        (Counts.mk 1 2 3 4 5 6 none)).timestamp.getD "Unknown" ≠ "2025-01-01T00:00:00Z"
    ∧ lastUpdatedChunk (Summary.mk (some "2024-05-05T00:00:00Z") (some "drzo")
        (Counts.mk 1 2 3 4 5 6 none)) = "**Last Updated:** 2024-05-05T00:00:00Z" :=
  ⟨rfl, by decide, by decide, rfl⟩

/-- Claim C5, amended: rendering is a deterministic function of the four
snapshot inputs alone — two runs on identical snapshot inputs produce fully
identical report documents, independent of the render time and of the loaded
`user_info` (conjunct 1); the header timestamp field carries the summary
snapshot's own timestamp, not the render time (conjunct 2). -/
theorem generate_readme_deterministic (ui ui' : Option UserInfo) (s : Summary)
    (ents : Option (List Enterprise)) (orgs : Option (List OrgNode))
    (repos : Option (List Repo)) (now now' : String) :
    generate_readme ui (some s) ents orgs repos now
      = generate_readme ui' (some s) ents orgs repos now'
    ∧ ∃ pre post : String,
        (generate_readme ui (some s) ents orgs repos now).1
          = some (pre ++ ("**Last Updated:** " ++ s.timestamp.getD "Unknown") ++ post) := by
  refine ⟨rfl, headerIntro, overviewPrefix ++ (enterprisesCountRow s.counts
    ++ (overviewRest s.counts ++ (enterprisesSection (ents.getD [])
    ++ ("## 🏢 Organization Categories\n\n" ++ (categoriesSection (orgs.getD [])
    ++ (repoStatsSection (repos.getD []) ++ (recentReposHeader
    ++ (String.join (((repos.getD []).take 15).map recent_repo_row) ++ staticTail)))))))), ?_⟩
  show some (render s (ents.getD []) (orgs.getD []) (repos.getD [])) = _
  rw [render_decomp]
  simp [lastUpdatedChunk, String.append_assoc]

theorem enterprisesCountRow_none (c : Counts) (h : c.enterprises = none) :
    enterprisesCountRow c = "| Enterprises | 0 |" := by
  unfold enterprisesCountRow
  rw [h]
  rfl

/-- Claim C10: the Collector writes a summary whose `counts` has no
`enterprises` key (conjunct 1); the Overview row therefore reads that key
with default 0, so a report generated from any Collector-produced summary
shows `| Enterprises | 0 |` (conjunct 2) — even when the enterprises
snapshot is non-empty, in which case the enterprise table is rendered in the
same report (conjunct 3). -/
theorem collector_summary_shows_zero_enterprises {φ γ σ τ : Type}
    (isoNow : String) (user : Option String) (orgs : List OrgNode) (repos : List Repo)
    (followers : List φ) (following : List γ) (starred : List σ) (gists : List τ)
    (ui : Option UserInfo) (ents : List Enterprise) (rorgs : List OrgNode)
    (rrepos : List Repo) (now : String) (hne : ents ≠ []) :
    (make_summary isoNow user orgs repos followers following starred gists).counts.enterprises
        = none
    ∧ (∃ pre post : String,
        (generate_readme ui
            (some (make_summary isoNow user orgs repos followers following starred gists))
            (some ents) (some rorgs) (some rrepos) now).1
          = some (pre ++ "| Enterprises | 0 |" ++ post))
    ∧ (∃ pre post : String,
        (generate_readme ui
            (some (make_summary isoNow user orgs repos followers following starred gists))
            (some ents) (some rorgs) (some rrepos) now).1
          = some (pre ++ "| Enterprise | Slug | Organizations | Members | Admin |" ++ post)) := by
  obtain ⟨e, es, rfl⟩ := List.exists_cons_of_ne_nil hne
  refine ⟨rfl, ?_, ?_⟩
  · refine ⟨headerIntro
      ++ (lastUpdatedChunk (make_summary isoNow user orgs repos followers following starred gists)
      ++ overviewPrefix),
      overviewRest (make_summary isoNow user orgs repos followers following starred gists).counts
      ++ (enterprisesSection (e :: es)
      ++ ("## 🏢 Organization Categories\n\n" ++ (categoriesSection rorgs
      ++ (repoStatsSection rrepos ++ (recentReposHeader
      ++ (String.join ((rrepos.take 15).map recent_repo_row) ++ staticTail)))))), ?_⟩
    show some (render (make_summary isoNow user orgs repos followers following starred gists)
      (e :: es) rorgs rrepos) = _
    rw [render_decomp,
      enterprisesCountRow_none
        (make_summary isoNow user orgs repos followers following starred gists).counts rfl]
    simp only [String.append_assoc]
  · refine ⟨headerIntro
      ++ (lastUpdatedChunk (make_summary isoNow user orgs repos followers following starred gists)
      ++ (overviewPrefix
      ++ (enterprisesCountRow
            (make_summary isoNow user orgs repos followers following starred gists).counts
      ++ overviewRest
          (make_summary isoNow user orgs repos followers following starred gists).counts))),
      "\n|------------|------|---------------|---------|-------|\n"
      ++ (String.join ((e :: es).map ent_row)
      ++ ("\n### Enterprise → Organization Mapping\n\n"
      ++ (String.join ((e :: es).map ent_mapping_block)
      ++ ("## 🏢 Organization Categories\n\n" ++ (categoriesSection rorgs
      ++ (repoStatsSection rrepos ++ (recentReposHeader
      ++ (String.join ((rrepos.take 15).map recent_repo_row) ++ staticTail)))))))), ?_⟩
    show some (render (make_summary isoNow user orgs repos followers following starred gists)
      (e :: es) rorgs rrepos) = _
    rw [render_decomp, enterprisesSection_cons]
    simp only [String.append_assoc]

/-- Witness for C10 at concrete inputs: empty collections and a single
(entirely defaulted) enterprise record. -/
theorem collector_summary_zero_witness :
    (make_summary "2024-01-01T00:00:00" none [] [] ([] : List Nat) ([] : List Nat)
        ([] : List Nat) ([] : List Nat)).counts.enterprises = none :=
  (collector_summary_shows_zero_enterprises "2024-01-01T00:00:00" none [] [] [] [] [] []
    none [Enterprise.mk none none none none none none] [] [] "2024-01-02T00:00:00Z"
    (by decide)).1

/-! ## Properties of the enterprise mapping -/

theorem lookup_dict_set {κ ν : Type} [BEq κ] [LawfulBEq κ] (m : List (κ × ν)) (k k' : κ)
    (v : ν) :
    (dict_set m k v).lookup k' = if k' == k then some v else m.lookup k' := by
  induction m with
  | nil =>
    by_cases h : k' == k <;> simp [dict_set, List.lookup, h]
  | cons p rest ih =>
    obtain ⟨a, b⟩ := p
    by_cases hak : a = k
    · subst hak
      by_cases hk : k' = a
      · subst hk
        simp [dict_set, List.lookup]
      · have h1 : (k' == a) = false := by simp [hk]
        simp [dict_set, List.lookup, h1]
    · have h2 : (a == k) = false := by simp [hak]
      by_cases hk : k' = a
      · subst hk
        have h3 : (k' == k) = false := by simp [hak]
        simp [dict_set, List.lookup, h2, h3]
      · have h4 : (k' == a) = false := by simp [hk]
        simp [dict_set, List.lookup, h2, h4, ih]

theorem lookup_inner_fold (v : EnterpriseRef) (nodes : List OrgNode)
    (login : Option String) :
    ∀ m : List (Option String × EnterpriseRef),
      (nodes.foldl (fun m o => dict_set m o.login v) m).lookup login
        = if nodes.any (fun o => o.login == login) then some v else m.lookup login := by
  induction nodes with
  | nil => intro m; simp
  | cons o os ih =>
    intro m
    rw [List.foldl_cons, ih (dict_set m o.login v), lookup_dict_set]
    by_cases he : o.login = login
    · subst he
      simp [List.any_cons]
    · have h1 : (login == o.login) = false := by simp [Ne.symm he]
      have h2 : (o.login == login) = false := by simp [he]
      simp [List.any_cons, h1, h2]

theorem lookup_outer_fold (ents : List Enterprise) (login : Option String) :
    ∀ m : List (Option String × EnterpriseRef),
      (ents.foldl
          (fun mapping ent => (entOrgNodes ent).foldl
            (fun m o => dict_set m o.login
              (EnterpriseRef.mk (ent.name.getD "Unknown") (ent.slug.getD ""))) mapping)
          m).lookup login
        = match (ents.filter
            (fun e => (entOrgNodes e).any (fun o => o.login == login))).getLast? with
          | some e => some (EnterpriseRef.mk (e.name.getD "Unknown") (e.slug.getD ""))
          | none => m.lookup login := by
  induction ents with
  | nil => intro m; simp
  | cons e es ih =>
    intro m
    rw [List.foldl_cons, ih, lookup_inner_fold]
    by_cases pe : (entOrgNodes e).any (fun o => o.login == login) = true
    · rw [List.filter_cons, if_pos pe]
      cases hfe : es.filter (fun e => (entOrgNodes e).any (fun o => o.login == login)) with
      | nil => simp [hfe, pe]
      | cons f fs =>
        obtain ⟨x, hx⟩ := Option.isSome_iff_exists.mp
          (List.getLast?_isSome.mpr (List.cons_ne_nil f fs))
        simp [hfe, pe, List.getLast?_cons_cons, hx]
    · rw [List.filter_cons, if_neg pe]
      cases hfe : es.filter (fun e => (entOrgNodes e).any (fun o => o.login == login)) with
      | nil => simp [hfe, pe]
      | cons f fs => simp [hfe, pe, List.getLast?_cons_cons]

/-- Claim C8: the mapping built by `map_orgs_to_enterprises` binds a login
exactly when it occurs in some enterprise's nested organization list
(conjunct 2), and the bound value is the name/slug of the *last* enterprise
(in input order) whose list contains it — silent last-write-wins, no
ambiguity detection (conjunct 1). -/
theorem map_orgs_to_enterprises_last_write (ents : List Enterprise)
    (login : Option String) :
    (map_orgs_to_enterprises ents).lookup login
      = ((ents.filter
            (fun e => (entOrgNodes e).any (fun o => o.login == login))).getLast?).map
          (fun e => EnterpriseRef.mk (e.name.getD "Unknown") (e.slug.getD ""))
    ∧ ((map_orgs_to_enterprises ents).lookup login).isSome
        = ents.any (fun e => (entOrgNodes e).any (fun o => o.login == login)) := by
  have h := lookup_outer_fold ents login []
  rw [show map_orgs_to_enterprises ents = ents.foldl
      (fun mapping ent => (entOrgNodes ent).foldl
        (fun m o => dict_set m o.login
          (EnterpriseRef.mk (ent.name.getD "Unknown") (ent.slug.getD ""))) mapping)
      [] from rfl]
  constructor
  · rw [h]
    cases (ents.filter
        (fun e => (entOrgNodes e).any (fun o => o.login == login))).getLast? <;> simp
  · rw [h]
    cases hany : ents.any (fun e => (entOrgNodes e).any (fun o => o.login == login)) with
    | false =>
      have hnil : ents.filter (fun e => (entOrgNodes e).any (fun o => o.login == login)) = [] := by
        apply List.filter_eq_nil_iff.mpr
        intro e he
        have := List.any_eq_false.mp hany e he
        simp [this]
      simp [hnil]
    | true =>
      obtain ⟨e, he, hpe⟩ := List.any_eq_true.mp hany
      have hne : ents.filter (fun e => (entOrgNodes e).any (fun o => o.login == login)) ≠ [] := by
        intro hnil
        have := List.filter_eq_nil_iff.mp hnil e he
        exact this hpe
      obtain ⟨l, hl⟩ := Option.isSome_iff_exists.mp (List.getLast?_isSome.mpr hne)
      simp [hl]
